import Mathlib

/-!
Verification development for a task-distribution system: a task manager
over a relational store, with role- and relationship-based authorization
and notification fan-out.  The Python source (`main.py`) is embedded
shallowly: the database becomes an in-memory record of lists, each
manager method becomes a state-passing function, and the SHA-256 digest
used for credential storage is implemented over `Nat` with explicit
`% 2^32` reductions.
-/

namespace TaskDist

/-! ## SHA-256 (model of `hashlib.sha256(...).hexdigest()`) -/

def M32 : Nat := 4294967296

def rotr32 (n x : Nat) : Nat := ((x >>> n) ||| (x <<< (32 - n))) % M32

def bsig0 (x : Nat) : Nat := rotr32 2 x ^^^ rotr32 13 x ^^^ rotr32 22 x

def bsig1 (x : Nat) : Nat := rotr32 6 x ^^^ rotr32 11 x ^^^ rotr32 25 x

def ssig0 (x : Nat) : Nat := rotr32 7 x ^^^ rotr32 18 x ^^^ (x >>> 3)

def ssig1 (x : Nat) : Nat := rotr32 17 x ^^^ rotr32 19 x ^^^ (x >>> 10)

def chf (x y z : Nat) : Nat := (x &&& y) ^^^ ((x ^^^ 4294967295) &&& z)

def majf (x y z : Nat) : Nat := (x &&& y) ^^^ (x &&& z) ^^^ (y &&& z)

/-- FIPS 180-4 round constants, written in decimal. -/
def sha256K : List Nat :=
  [1116352408, 1899447441, 3049323471, 3921009573, 961987163,
   1508970993, 2453635748, 2870763221, 3624381080, 310598401,
   607225278, 1426881987, 1925078388, 2162078206, 2614888103,
   3248222580, 3835390401, 4022224774, 264347078, 604807628,
   770255983, 1249150122, 1555081692, 1996064986, 2554220882,
   2821834349, 2952996808, 3210313671, 3336571891, 3584528711,
   113926993, 338241895, 666307205, 773529912, 1294757372,
   1396182291, 1695183700, 1986661051, 2177026350, 2456956037,
   2730485921, 2820302411, 3259730800, 3345764771, 3516065817,
   3600352804, 4094571909, 275423344, 430227734, 506948616,
   659060556, 883997877, 958139571, 1322822218, 1537002063,
   1747873779, 1955562222, 2024104815, 2227730452, 2361852424,
   2428436474, 2756734187, 3204031479, 3329325298]

structure Sha256State where
  a : Nat
  b : Nat
  c : Nat
  d : Nat
  e : Nat
  f : Nat
  g : Nat
  h : Nat
deriving Repr, DecidableEq

/-- FIPS 180-4 initial hash value, written in decimal. -/
def sha256_init : Sha256State :=
  ⟨1779033703, 3144134277, 1013904242, 2773480762,
   1359893119, 2600822924, 528734635, 1541459225⟩

def sha256_round (s : Sha256State) (kw : Nat × Nat) : Sha256State :=
  let t1 := (s.h + bsig1 s.e + chf s.e s.f s.g + kw.1 + kw.2) % M32
  let t2 := (bsig0 s.a + majf s.a s.b s.c) % M32
  ⟨(t1 + t2) % M32, s.a, s.b, s.c, (s.d + t1) % M32, s.e, s.f, s.g⟩

def sha256_extend : Nat → List Nat → List Nat
  | 0, w => w
  | n + 1, w =>
    let i := w.length
    let x := (ssig1 (w.getD (i - 2) 0) + w.getD (i - 7) 0 +
              ssig0 (w.getD (i - 15) 0) + w.getD (i - 16) 0) % M32
    sha256_extend n (w ++ [x])

def sha256_block (h0 : Sha256State) (block : List Nat) : Sha256State :=
  let w := sha256_extend 48 block
  let s := (sha256K.zip w).foldl sha256_round h0
  ⟨(h0.a + s.a) % M32, (h0.b + s.b) % M32, (h0.c + s.c) % M32, (h0.d + s.d) % M32,
   (h0.e + s.e) % M32, (h0.f + s.f) % M32, (h0.g + s.g) % M32, (h0.h + s.h) % M32⟩

def bytesToWordsBE : List Nat → List Nat
  | b0 :: b1 :: b2 :: b3 :: rest => (((b0 * 256 + b1) * 256 + b2) * 256 + b3) :: bytesToWordsBE rest
  | _ => []

def natToBytesBE (k x : Nat) : List Nat :=
  (List.range k).map (fun i => (x >>> (8 * (k - 1 - i))) % 256)

def sha256_pad (msg : List Nat) : List Nat :=
  let padZeros := (119 - msg.length % 64) % 64
  msg ++ 0x80 :: (List.replicate padZeros 0 ++ natToBytesBE 8 (8 * msg.length))

def chunks64 : List Nat → List (List Nat)
  | [] => []
  | b :: rest => ((b :: rest).take 64) :: chunks64 ((b :: rest).drop 64)
termination_by l => l.length
decreasing_by simp [List.length_drop]; omega

def sha256_run (msg : List Nat) : Sha256State :=
  ((chunks64 (sha256_pad msg)).map bytesToWordsBE).foldl sha256_block sha256_init

def sha256_words (msg : List Nat) : List Nat :=
  [(sha256_run msg).a, (sha256_run msg).b, (sha256_run msg).c, (sha256_run msg).d,
   (sha256_run msg).e, (sha256_run msg).f, (sha256_run msg).g, (sha256_run msg).h]

def hexChar (n : Nat) : Char :=
  if n < 10 then Char.ofNat (48 + n) else Char.ofNat (87 + n)

def hex8 (w : Nat) : List Char :=
  (List.range 8).map (fun i => hexChar ((w >>> (4 * (7 - i))) % 16))

def utf8Bytes (c : Char) : List Nat :=
  let n := c.toNat
  if n < 0x80 then [n]
  else if n < 0x800 then [0xC0 ||| (n >>> 6), 0x80 ||| (n &&& 0x3F)]
  else if n < 0x10000 then
    [0xE0 ||| (n >>> 12), 0x80 ||| ((n >>> 6) &&& 0x3F), 0x80 ||| (n &&& 0x3F)]
  else
    [0xF0 ||| (n >>> 18), 0x80 ||| ((n >>> 12) &&& 0x3F),
     0x80 ||| ((n >>> 6) &&& 0x3F), 0x80 ||| (n &&& 0x3F)]

def strBytes (s : String) : List Nat := s.data.flatMap utf8Bytes

/-- `User.hash_password`: SHA-256 hexdigest of the UTF-8 encoding of the secret. -/
def hash_password (password : String) : String :=
  String.mk ((sha256_words (strBytes password)).flatMap hex8)

theorem hex8_length (w : Nat) : (hex8 w).length = 8 := by
  simp [hex8]

/-- The digest is fixed-length: 64 hex characters, for every secret. -/
theorem hash_password_length (password : String) : (hash_password password).length = 64 := by
  simp [hash_password, String.length, sha256_words, hex8_length]

/-! ## Data model

The Postgres tables become lists inside a `DB` record; `uuid.uuid4()` and
`datetime.now()` become a deterministic counter and clock threaded through
the state.  The mail transport is an external collaborator with no effect
on stored state and is not modelled. -/

structure NotificationPrefs where
  email : Bool
  in_app : Bool
deriving Repr, DecidableEq

structure User where
  id : String
  username : String
  password_hash : String
  full_name : String
  is_admin : Bool
  email : Option String
  notification_preferences : NotificationPrefs
deriving Repr, DecidableEq

structure Department where
  id : String
  name : String
  head_id : String
deriving Repr, DecidableEq

structure Task where
  id : String
  title : String
  description : String
  created_by : String
  assigned_to : Option String
  department_id : Option String
  created_at : Nat
  deadline : Option Nat
  status : String
  priority : String
deriving Repr, DecidableEq

structure Notification where
  id : String
  user_id : String
  message : String
  type : String
  related_id : Option String
  created_at : Nat
  is_read : Bool
deriving Repr, DecidableEq

structure DB where
  users : List User
  departments : List Department
  department_employees : List (String × String)
  tasks : List Task
  notifications : List Notification
  next_id : Nat
  clock : Nat
deriving Repr, DecidableEq

/-- `TaskManager` state: the database plus the mutable session (`current_user`). -/
structure TMState where
  db : DB
  current_user : Option User
deriving Repr, DecidableEq

/-- Result of a manager operation: the Python methods return either a
success value or an error-message string. -/
inductive Res (α : Type) where
  | ok (a : α)
  | err (msg : String)
deriving Repr, DecidableEq

/-- Python truthiness of an optional string: `None` and `""` are falsy. -/
def truthy : Option String → Option String
  | some s => if s = "" then none else some s
  | none => none

def default_prefs : NotificationPrefs := ⟨true, true⟩

/-! ## NotificationService -/

/-- `NotificationService.create_notification`: inserts a record with a fresh
id, the current time, and `is_read = FALSE`. -/
def create_notification (db : DB) (user_id message ntype : String)
    (related_id : Option String) : String × DB :=
  let notification_id := toString db.next_id
  (notification_id,
   { db with
       notifications := db.notifications ++
         [⟨notification_id, user_id, message, ntype, related_id, db.clock, false⟩],
       next_id := db.next_id + 1,
       clock := db.clock + 1 })

/-- `NotificationService.notify_task_assignment`: joins the task with its
creator; if the join yields a row, creates one `task_assignment`
notification addressed to `user_id`. -/
def notify_task_assignment (db : DB) (task_id user_id : String) : DB :=
  match (db.tasks.find? (fun t => t.id == task_id)).bind
        (fun t => (db.users.find? (fun u => u.id == t.created_by)).map (fun u => (t, u))) with
  | none => db
  | some (t, u) =>
    (create_notification db user_id
      ("Вам назначена новая задача: " ++ t.title ++ " от пользователя " ++ u.full_name)
      "task_assignment" (some task_id)).2

def status_label (new_status : String) : String :=
  if new_status = "новая" then "создана"
  else if new_status = "в работе" then "взята в работу"
  else if new_status = "выполнена" then "выполнена"
  else if new_status = "отменена" then "отменена"
  else new_status

/-- Recipient set of a status-change event, in insertion order: the creator
(if truthy), then the assignee if truthy and distinct from the creator. -/
def status_change_recipients (t : Task) : List String :=
  (if t.created_by ≠ "" then [t.created_by] else []) ++
  (match truthy t.assigned_to with
   | some a => if a ≠ t.created_by then [a] else []
   | none => [])

/-- `NotificationService.notify_task_status_change`: loads the task and
creates one `task_status_change` notification per recipient. -/
def notify_task_status_change (db : DB) (task_id new_status : String) : DB :=
  match db.tasks.find? (fun t => t.id == task_id) with
  | none => db
  | some t =>
    (status_change_recipients t).foldl
      (fun acc uid =>
        (create_notification acc uid
          ("Задача '" ++ t.title ++ "' " ++ status_label new_status)
          "task_status_change" (some task_id)).2)
      db

/-- `NotificationService.mark_notification_as_read`: a single unconditional
`UPDATE ... WHERE id = %s` followed by `return True`; the `except: return
False` branch fires only on a gateway failure, which the in-memory gateway
model never raises. -/
def mark_notification_as_read (db : DB) (notification_id : String) : Bool × DB :=
  (true,
   { db with
       notifications := db.notifications.map
         (fun n => if n.id == notification_id then { n with is_read := true } else n) })

/-! ## TaskManager -/

/-- `TaskManager.register_user`: rejects a duplicate username, otherwise
inserts a user whose `password_hash` is the SHA-256 hexdigest of the secret
and returns the fresh user id.  Preferences take the table default. -/
def register_user (st : TMState) (username password full_name : String)
    (is_admin : Bool) (email : Option String) : Res String × TMState :=
  match st.db.users.find? (fun u => u.username == username) with
  | some _ => (.err "Пользователь с таким именем уже существует", st)
  | none =>
    let user_id := toString st.db.next_id
    let u : User := ⟨user_id, username, hash_password password, full_name,
                     is_admin, email, default_prefs⟩
    (.ok user_id,
     { st with db := { st.db with users := st.db.users ++ [u],
                                  next_id := st.db.next_id + 1 } })

/-- `TaskManager.login`: loads the row by username, recomputes the digest of
the supplied secret and compares with the stored hash; on a match installs
the user as the session principal. -/
def login (st : TMState) (username password : String) : Bool × TMState :=
  match st.db.users.find? (fun u => u.username == username) with
  | none => (false, st)
  | some u =>
    if hash_password password = u.password_hash then
      (true, { st with current_user := some u })
    else
      (false, st)

def logout (st : TMState) : TMState := { st with current_user := none }

/-- Final `elif department_id:` branch shared by the permission cascades:
look up the department row and compare its head with the session user. -/
def is_dept_head (db : DB) (cu : User) (dep : Option String) : Bool :=
  match truthy dep with
  | some did =>
    match db.departments.find? (fun d => d.id == did) with
    | some d => d.head_id == cu.id
    | none => false
  | none => false

/-- Permission chain of `TaskManager.assign_task` (admin, else creator, else
head of the task's department), as the source's if/elif cascade. -/
def assign_permission (db : DB) (cu : User) (task : Task) : Bool :=
  if cu.is_admin then true
  else if cu.id == task.created_by then true
  else is_dept_head db cu task.department_id

/-- Read/decision phase of `TaskManager.assign_task`: everything the method
does before its `UPDATE`, evaluated against a snapshot of the store. -/
def assign_task_read (db : DB) (cu : User) (task_id user_id : String) : Res Unit :=
  match db.tasks.find? (fun t => t.id == task_id) with
  | none => .err "Задача не найдена"
  | some task =>
    if ¬ assign_permission db cu task then
      .err "Недостаточно прав для назначения этой задачи"
    else match db.users.find? (fun u => u.id == user_id) with
    | none => .err "Пользователь не найден"
    | some _ =>
      match truthy task.department_id with
      | some did =>
        if (did, user_id) ∈ db.department_employees then .ok ()
        else .err "Назначенный пользователь не является сотрудником данного отдела"
      | none => .ok ()

/-- Write phase of `TaskManager.assign_task`: the `UPDATE tasks SET
assigned_to, status = 'в работе'` plus the assignment notification. -/
def assign_task_write (db : DB) (task_id user_id : String) : DB :=
  let db1 := { db with
      tasks := db.tasks.map (fun t =>
        if t.id == task_id then { t with assigned_to := some user_id, status := "в работе" }
        else t) }
  notify_task_assignment db1 task_id user_id

/-- `TaskManager.assign_task`. -/
def assign_task (st : TMState) (task_id user_id : String) : Res Unit × TMState :=
  match st.current_user with
  | none => (.err "Вы должны войти в систему", st)
  | some cu =>
    match assign_task_read st.db cu task_id user_id with
    | .err m => (.err m, st)
    | .ok () => (.ok (), { st with db := assign_task_write st.db task_id user_id })

def valid_statuses : List String := ["новая", "в работе", "выполнена", "отменена"]

/-- Permission chain of `TaskManager.update_task_status` (admin, else
creator, else assignee, else head of the task's department). -/
def update_status_permission (db : DB) (cu : User) (task : Task) : Bool :=
  if cu.is_admin then true
  else if cu.id == task.created_by then true
  else if some cu.id == task.assigned_to then true
  else is_dept_head db cu task.department_id

/-- `TaskManager.update_task_status`: session check, enum validation,
task load, permission chain, `UPDATE tasks SET status`, then the
status-change notification fan-out. -/
def update_task_status (st : TMState) (task_id status : String) : Res Unit × TMState :=
  match st.current_user with
  | none => (.err "Вы должны войти в систему", st)
  | some cu =>
    if status ∉ valid_statuses then
      (.err ("Некорректный статус. Допустимые значения: " ++
             String.intercalate ", " valid_statuses), st)
    else match st.db.tasks.find? (fun t => t.id == task_id) with
    | none => (.err "Задача не найдена", st)
    | some task =>
      if ¬ update_status_permission st.db cu task then
        (.err "Недостаточно прав для изменения статуса этой задачи", st)
      else
        let db1 := { st.db with
            tasks := st.db.tasks.map (fun t =>
              if t.id == task_id then { t with status := status } else t) }
        (.ok (), { st with db := notify_task_status_change db1 task_id status })

/-- `TaskManager.create_task`: session check, department existence and
permission checks, assignee existence and membership checks, then the
insert (status `новая`, no priority validation) and, when an assignee is
set, the assignment notification. -/
def create_task (st : TMState) (title description : String)
    (department_id assigned_to : Option String) (deadline : Option Nat)
    (priority : String) : Res String × TMState :=
  match st.current_user with
  | none => (.err "Вы должны войти в систему для создания задачи", st)
  | some cu =>
    let dept_check : Res Unit :=
      match truthy department_id with
      | none => .ok ()
      | some did =>
        match st.db.departments.find? (fun d => d.id == did) with
        | none => .err "Указанный отдел не найден"
        | some d =>
          if ¬ cu.is_admin ∧ d.head_id ≠ cu.id then
            .err "Недостаточно прав для создания задачи в этом отделе"
          else .ok ()
    match dept_check with
    | .err m => (.err m, st)
    | .ok () =>
      let assignee_check : Res Unit :=
        match truthy assigned_to with
        | none => .ok ()
        | some aid =>
          match st.db.users.find? (fun u => u.id == aid) with
          | none => .err "Указанный пользователь не найден"
          | some _ =>
            match truthy department_id with
            | some did =>
              if (did, aid) ∈ st.db.department_employees then .ok ()
              else .err "Указанный пользователь не является сотрудником данного отдела"
            | none => .ok ()
      match assignee_check with
      | .err m => (.err m, st)
      | .ok () =>
        let task_id := toString st.db.next_id
        let t : Task := ⟨task_id, title, description, cu.id, assigned_to,
                         department_id, st.db.clock, deadline, "новая", priority⟩
        let db1 := { st.db with tasks := st.db.tasks ++ [t],
                                next_id := st.db.next_id + 1,
                                clock := st.db.clock + 1 }
        let db2 := match truthy assigned_to with
          | some aid => notify_task_assignment db1 task_id aid
          | none => db1
        (.ok task_id, { st with db := db2 })

/-- Comparator of `ORDER BY t.created_at DESC`. -/
def created_desc (a b : Task) : Prop := b.created_at ≤ a.created_at

instance : DecidableRel created_desc := fun a b => Nat.decLe b.created_at a.created_at

instance : IsTotal Task created_desc :=
  ⟨fun a b => (Nat.le_total b.created_at a.created_at).imp id id⟩

instance : IsTrans Task created_desc :=
  ⟨fun _ _ _ hab hbc => Nat.le_trans hbc hab⟩

/-- Row selection of the query: `WHERE (created_by = uid OR assigned_to =
uid)` plus the optional `AND status = %s` filter. -/
def user_tasks_rows (db : DB) (uid : String) (status : Option String) : List Task :=
  let rows := db.tasks.filter (fun (t : Task) => t.created_by == uid || t.assigned_to == some uid)
  match truthy status with
  | some s => rows.filter (fun (t : Task) => t.status == s)
  | none => rows

/-- The task-list query of `TaskManager.get_user_tasks`: the selected rows
ordered by creation time descending with `LIMIT per_page OFFSET
(page - 1) * per_page`.  The projection to display columns is
presentation and not modelled. -/
def user_tasks_query (db : DB) (uid : String) (status : Option String)
    (page per_page : Nat) : List Task :=
  (((user_tasks_rows db uid status).insertionSort created_desc).drop
    ((page - 1) * per_page)).take per_page

/-- `TaskManager.get_user_tasks`: defaults the queried user to the session
principal; a non-admin may query only themselves. -/
def get_user_tasks (st : TMState) (user_id : Option String) (status : Option String)
    (page per_page : Nat) : Res (List Task) × TMState :=
  match st.current_user with
  | none => (.err "Вы должны войти в систему", st)
  | some cu =>
    match truthy user_id with
    | none => (.ok (user_tasks_query st.db cu.id status page per_page), st)
    | some uid =>
      if uid ≠ cu.id ∧ ¬ cu.is_admin then
        (.err "Недостаточно прав для просмотра задач другого пользователя", st)
      else
        (.ok (user_tasks_query st.db uid status page per_page), st)

/-! ## Concrete fixture -/

def uAdmin : User := ⟨"a", "alice", "ha", "Alice", true, some "a@x", default_prefs⟩

def uBob : User := ⟨"b", "bob", "hb", "Bob", false, none, default_prefs⟩

def uCarol : User := ⟨"c", "carol", "hc", "Carol", false, none, default_prefs⟩

def dep1 : Department := ⟨"d1", "IT", "a"⟩

def task1 : Task := ⟨"t1", "Сервер", "настройка", "b", some "c", none, 5, none, "новая", "обычный"⟩

/-- A task whose creator and assignee coincide. -/
def task2 : Task := ⟨"t2", "Отчёт", "", "b", some "b", none, 6, none, "в работе", "обычный"⟩

def db0 : DB :=
  ⟨[uAdmin, uBob, uCarol], [dep1], [("d1", "b"), ("d1", "c")], [task1, task2], [], 100, 50⟩

def st0 : TMState := ⟨db0, some uBob⟩

/-! ## Claim theorems -/

/-- The "department head" relationship used by the §4.2 table rows. -/
def head_of_task_department (db : DB) (cu : User) (task : Task) : Prop :=
  ∃ did d, truthy task.department_id = some did ∧
    db.departments.find? (fun x => x.id == did) = some d ∧ d.head_id = cu.id

theorem is_dept_head_iff (db : DB) (cu : User) (dep : Option String) :
    is_dept_head db cu dep = true ↔
      ∃ did d, truthy dep = some did ∧
        db.departments.find? (fun x => x.id == did) = some d ∧ d.head_id = cu.id := by
  unfold is_dept_head
  constructor
  · intro hm
    split at hm
    · split at hm
      · exact ⟨_, _, by assumption, by assumption, by simpa using hm⟩
      · simp at hm
    · simp at hm
  · rintro ⟨did, d, hdep, hfind, hhead⟩
    simp [hdep, hfind, hhead]

theorem update_status_permission_iff (db : DB) (cu : User) (task : Task) :
    update_status_permission db cu task = true ↔
      (cu.is_admin = true ∨ cu.id = task.created_by ∨ some cu.id = task.assigned_to ∨
       head_of_task_department db cu task) := by
  unfold update_status_permission head_of_task_department
  rw [← is_dept_head_iff]
  split_ifs with h1 h2 h3
  · simp [h1]
  · simp_all
  · simp_all
  · simp_all

/-- C1.  For a session principal, an existing task, and a valid status,
`update_task_status` succeeds exactly when the principal is admin OR the
task's creator OR the task's assignee OR the head of the task's
department (the source's if/elif cascade, first match wins); every other
principal receives the permission error with the whole state unchanged. -/
theorem update_status_access_control
    (st : TMState) (cu : User) (task : Task) (task_id status : String)
    (hcu : st.current_user = some cu)
    (htask : st.db.tasks.find? (fun t => t.id == task_id) = some task)
    (hstatus : status ∈ valid_statuses) :
    ((update_task_status st task_id status).1 = .ok () ↔
      (cu.is_admin = true ∨ cu.id = task.created_by ∨ some cu.id = task.assigned_to ∨
       head_of_task_department st.db cu task)) ∧
    ((update_task_status st task_id status).1 ≠ .ok () →
      update_task_status st task_id status =
        (.err "Недостаточно прав для изменения статуса этой задачи", st)) := by
  have hv : ¬ status ∉ valid_statuses := by simpa using hstatus
  rw [← update_status_permission_iff]
  unfold update_task_status
  rw [hcu]
  simp only [if_neg hv, htask]
  by_cases hp : update_status_permission st.db cu task = true
  · simp [hp]
  · simp [hp]

/-- Witness for C1: the task's creator `bob` is permitted. -/
theorem update_status_access_control_witness :
    (update_task_status st0 "t1" "выполнена").1 = Res.ok () :=
  (update_status_access_control st0 uBob task1 "t1" "выполнена" rfl (by decide)
    (by decide)).1.mpr (Or.inr (Or.inl rfl))

/-- C3.  With a session principal, any status string outside the four-value
enum is rejected with the validation error before the task is even loaded,
and the whole state — in particular every stored task — is unchanged. -/
theorem update_status_invalid_rejected
    (st : TMState) (cu : User) (task_id status : String)
    (hcu : st.current_user = some cu)
    (hstatus : status ∉ valid_statuses) :
    update_task_status st task_id status =
      (.err ("Некорректный статус. Допустимые значения: " ++
             String.intercalate ", " valid_statuses), st) := by
  unfold update_task_status
  rw [hcu]
  simp only [if_pos hstatus]

/-- Witness for C3: the English string `completed` is not in the enum. -/
theorem update_status_invalid_rejected_witness :
    update_task_status st0 "t1" "completed" =
      (.err ("Некорректный статус. Допустимые значения: " ++
             String.intercalate ", " valid_statuses), st0) :=
  update_status_invalid_rejected st0 uBob "t1" "completed" rfl (by decide)

/-- C10.  `mark_notification_as_read` returns `true` for every id, existing
or not; it flips only the addressed record's `is_read`, leaves every other
notification identical, preserves the count, touches no other table, and
when no record carries the id it leaves the store exactly as it was. -/
theorem mark_notification_as_read_spec (db : DB) (notification_id : String) :
    (mark_notification_as_read db notification_id).1 = true ∧
    (mark_notification_as_read db notification_id).2.notifications.length =
      db.notifications.length ∧
    (∀ n ∈ db.notifications, n.id ≠ notification_id →
        n ∈ (mark_notification_as_read db notification_id).2.notifications) ∧
    (∀ n ∈ (mark_notification_as_read db notification_id).2.notifications,
        n.id = notification_id → n.is_read = true) ∧
    (mark_notification_as_read db notification_id).2.tasks = db.tasks ∧
    (mark_notification_as_read db notification_id).2.users = db.users ∧
    ((∀ n ∈ db.notifications, n.id ≠ notification_id) →
        (mark_notification_as_read db notification_id).2 = db) := by
  unfold mark_notification_as_read
  refine ⟨rfl, by simp, ?_, ?_, rfl, rfl, ?_⟩
  · intro n hn hne
    simp only [List.mem_map]
    exact ⟨n, hn, by simp [hne]⟩
  · intro n hn hid
    simp only [List.mem_map] at hn
    obtain ⟨m, hm, hmap⟩ := hn
    by_cases h : m.id = notification_id
    · simp [h] at hmap
      rw [← hmap]
    · simp [h] at hmap
      rw [← hmap] at hid
      exact absurd hid h
  · intro hall
    have hm : db.notifications.map
        (fun n => if n.id == notification_id then { n with is_read := true } else n) =
        db.notifications :=
      (List.map_congr_left (g := id) (fun n hn => by simp [hall n hn])).trans
        (List.map_id db.notifications)
    rw [hm]

/-- Witness for C10: marking an id that no notification carries. -/
theorem mark_notification_as_read_witness :
    (mark_notification_as_read db0 "missing").1 = true :=
  (mark_notification_as_read_spec db0 "missing").1

/-- C4.  A status-change event on a task with a creator and an assignee
notifies the deduplicated pair: one `task_status_change` record when they
coincide, two (creator first, then assignee) when they differ — the
recipient computation never sees an acting principal, so nobody is
self-excluded. -/
theorem status_change_notification_dedup
    (db : DB) (task_id new_status : String) (t : Task) (a : String)
    (ht : db.tasks.find? (fun x => x.id == task_id) = some t)
    (hc : t.created_by ≠ "")
    (ha : truthy t.assigned_to = some a) :
    ((notify_task_status_change db task_id new_status).notifications.drop
        db.notifications.length).map (fun n => (n.user_id, n.type)) =
      (if a = t.created_by
        then [(t.created_by, "task_status_change")]
        else [(t.created_by, "task_status_change"), (a, "task_status_change")]) ∧
    (notify_task_status_change db task_id new_status).notifications.length =
      db.notifications.length + (if a = t.created_by then 1 else 2) := by
  unfold notify_task_status_change status_change_recipients
  rw [ht]
  simp only [if_pos hc, ha]
  by_cases hac : a = t.created_by
  · simp [hac, create_notification, List.drop_left]
  · simp [hac, create_notification, List.append_assoc, List.drop_left]

/-- Witness for C4: on `task2` creator and assignee are both `b`, so a
single record is created. -/
theorem status_change_notification_dedup_witness :
    ((notify_task_status_change db0 "t2" "выполнена").notifications.drop
        db0.notifications.length).map (fun n => (n.user_id, n.type)) =
      [("b", "task_status_change")] := by
  have h := status_change_notification_dedup db0 "t2" "выполнена" task2 "b"
    (by decide) (by decide) (by decide)
  simpa using h.1

/-- Reusable shape of a successful `assign_task`: the stored tasks are the
old ones with the addressed row reassigned and forced to `в работе`, and
exactly one notification — a `task_assignment` one, to the new assignee —
is appended.  The foreign-key hypothesis mirrors `tasks.created_by
REFERENCES users(id)`, which the store guarantees. -/
theorem notify_task_assignment_eq
    (db : DB) (task_id user_id : String) (t : Task) (u : User)
    (ht : db.tasks.find? (fun x => x.id == task_id) = some t)
    (hu : db.users.find? (fun x => x.id == t.created_by) = some u) :
    notify_task_assignment db task_id user_id =
      (create_notification db user_id
        ("Вам назначена новая задача: " ++ t.title ++ " от пользователя " ++ u.full_name)
        "task_assignment" (some task_id)).2 := by
  unfold notify_task_assignment
  rw [ht, Option.some_bind, hu, Option.map_some']

theorem assign_task_success_core
    (st r : TMState) (task_id user_id : String)
    (hfk : ∀ t ∈ st.db.tasks, ∃ u ∈ st.db.users, u.id = t.created_by)
    (h : assign_task st task_id user_id = (.ok (), r)) :
    (∃ t ∈ st.db.tasks, t.id = task_id) ∧
    r.db.tasks = st.db.tasks.map (fun t =>
      if t.id == task_id then { t with assigned_to := some user_id, status := "в работе" }
      else t) ∧
    ∃ n : Notification, r.db.notifications = st.db.notifications ++ [n] ∧
      n.user_id = user_id ∧ n.type = "task_assignment" ∧ n.related_id = some task_id := by
  unfold assign_task at h
  split at h
  · simp at h
  next cu hcu =>
    split at h
    · simp at h
    next hread =>
      have hr : { st with db := assign_task_write st.db task_id user_id } = r := by
        simpa using congrArg Prod.snd h
      subst hr
      obtain ⟨task, hfind⟩ :
          ∃ task, st.db.tasks.find? (fun t => t.id == task_id) = some task := by
        unfold assign_task_read at hread
        split at hread
        · simp at hread
        next task hf => exact ⟨task, hf⟩
      have htmem := List.mem_of_find?_eq_some hfind
      have htid : task.id = task_id := by simpa using List.find?_some hfind
      refine ⟨⟨task, htmem, htid⟩, ?_⟩
      set f : Task → Task := fun t =>
        if t.id == task_id then { t with assigned_to := some user_id, status := "в работе" }
        else t with hfdef
      have hpf : ∀ t : Task, ((f t).id == task_id) = (t.id == task_id) := by
        intro t
        by_cases hveq : t.id = task_id <;> simp [hfdef, hveq]
      have hfind1 : (st.db.tasks.map f).find? (fun t => t.id == task_id) = some (f task) := by
        rw [List.find?_map]
        have hcomp : ((fun (t : Task) => t.id == task_id) ∘ f) =
            (fun (t : Task) => t.id == task_id) := by
          funext t; exact hpf t
        rw [hcomp, hfind, Option.map_some']
      have hcreated : (f task).created_by = task.created_by := by
        by_cases hveq : task.id = task_id <;> simp [hfdef, hveq]
      obtain ⟨u, hu, huid⟩ := hfk task htmem
      obtain ⟨u2, hfu⟩ :
          ∃ u2, st.db.users.find? (fun x => x.id == (f task).created_by) = some u2 := by
        refine Option.isSome_iff_exists.mp ?_
        rw [List.find?_isSome]
        exact ⟨u, hu, by simp [hcreated, huid]⟩
      have hwrite : assign_task_write st.db task_id user_id =
          (create_notification { st.db with tasks := st.db.tasks.map f } user_id
            ("Вам назначена новая задача: " ++ (f task).title ++ " от пользователя " ++
              u2.full_name)
            "task_assignment" (some task_id)).2 := by
        unfold assign_task_write
        exact notify_task_assignment_eq _ task_id user_id (f task) u2 hfind1 hfu
      rw [hwrite]
      exact ⟨rfl, _, rfl, rfl, rfl, rfl⟩

/-- C2.  Every successful `assign_task` leaves the addressed task assigned
to the target user with status forced to `в работе`, whatever its prior
status was (no hypothesis constrains it), and emits exactly one
notification: a `task_assignment` one to the target user. -/
theorem assign_task_success_forces_in_progress
    (st r : TMState) (task_id user_id : String)
    (hfk : ∀ t ∈ st.db.tasks, ∃ u ∈ st.db.users, u.id = t.created_by)
    (h : assign_task st task_id user_id = (.ok (), r)) :
    (∃ t ∈ r.db.tasks, t.id = task_id) ∧
    (∀ t ∈ r.db.tasks, t.id = task_id →
        t.assigned_to = some user_id ∧ t.status = "в работе") ∧
    ∃ n : Notification, r.db.notifications = st.db.notifications ++ [n] ∧
      n.user_id = user_id ∧ n.type = "task_assignment" ∧ n.related_id = some task_id := by
  obtain ⟨⟨t0, ht0, hid0⟩, htasks, hnotif⟩ :=
    assign_task_success_core st r task_id user_id hfk h
  refine ⟨?_, ?_, hnotif⟩
  · refine ⟨{ t0 with assigned_to := some user_id, status := "в работе" }, ?_, hid0⟩
    rw [htasks]
    have := List.mem_map_of_mem
      (fun t => if t.id == task_id then
          { t with assigned_to := some user_id, status := "в работе" } else t) ht0
    simpa [hid0] using this
  · intro t htmem hid
    rw [htasks] at htmem
    obtain ⟨s, hs, hmap⟩ := List.mem_map.mp htmem
    by_cases hcase : s.id = task_id
    · rw [← hmap]
      simp [hcase]
    · rw [← hmap] at hid
      simp [hcase] at hid

/-- Witness for C2: reassigning `t1` (status `новая`) to `carol`. -/
theorem assign_task_success_forces_in_progress_witness :
    ∃ t ∈ (assign_task st0 "t1" "c").2.db.tasks,
      t.id = "t1" ∧ t.assigned_to = some "c" ∧ t.status = "в работе" := by
  obtain ⟨⟨t, ht, hid⟩, h2, _⟩ :=
    assign_task_success_forces_in_progress st0 (assign_task st0 "t1" "c").2 "t1" "c"
      (by decide) (by decide)
  exact ⟨t, ht, hid, h2 t ht hid⟩

/-- C9.  A successful `assign_task` emits only the assignment notification:
the sole appended record is a `task_assignment` addressed to the new
assignee, and no `task_status_change` record is created even though the
status silently moved to `в работе`. -/
theorem assign_task_emits_only_assignment_notification
    (st r : TMState) (task_id user_id : String)
    (hfk : ∀ t ∈ st.db.tasks, ∃ u ∈ st.db.users, u.id = t.created_by)
    (h : assign_task st task_id user_id = (.ok (), r)) :
    (r.db.notifications.drop st.db.notifications.length).map
        (fun n => (n.type, n.user_id)) = [("task_assignment", user_id)] ∧
    ∀ n ∈ r.db.notifications, n.type = "task_status_change" →
      n ∈ st.db.notifications := by
  obtain ⟨_, _, n, hn, hu, hty, _⟩ := assign_task_success_core st r task_id user_id hfk h
  constructor
  · rw [hn, List.drop_left]
    simp [hty, hu]
  · intro m hm hmt
    rw [hn] at hm
    rcases List.mem_append.mp hm with hold | hnew
    · exact hold
    · simp only [List.mem_singleton] at hnew
      subst hnew
      rw [hty] at hmt
      exact absurd hmt (by decide)

/-- Witness for C9: assigning `t1` to `carol` appends exactly the one
assignment record. -/
theorem assign_task_emits_only_assignment_notification_witness :
    ((assign_task st0 "t1" "c").2.db.notifications.drop
        st0.db.notifications.length).map (fun n => (n.type, n.user_id)) =
      [("task_assignment", "c")] :=
  (assign_task_emits_only_assignment_notification st0 (assign_task st0 "t1" "c").2
    "t1" "c" (by decide) (by decide)).1

/-- C6.  Registering a fresh username stores only the fixed-length SHA-256
hexdigest of the secret (never the secret itself when lengths can tell
them apart); logging in with the same pair recomputes the digest, matches,
and installs a session principal carrying the identity, admin flag, email
and notification preferences; any secret with a different digest is
rejected with the session untouched. -/
theorem register_login_roundtrip
    (st : TMState) (username password full_name : String) (is_admin : Bool)
    (email : Option String)
    (hfree : st.db.users.find? (fun u => u.username == username) = none) :
    ∃ uid st1,
      register_user st username password full_name is_admin email = (.ok uid, st1) ∧
      (∀ u ∈ st1.db.users, u.username = username →
          u.password_hash = hash_password password ∧
          u.password_hash.length = 64 ∧
          (password.length ≠ 64 → u.password_hash ≠ password)) ∧
      login st1 username password =
        (true, { st1 with current_user := some (⟨uid, username,
          hash_password password, full_name, is_admin, email,
          default_prefs⟩ : User) }) ∧
      (∀ password', hash_password password' ≠ hash_password password →
          login st1 username password' = (false, st1)) := by
  have hreg : register_user st username password full_name is_admin email =
      (.ok (toString st.db.next_id),
       { st with db := { st.db with
           users := st.db.users ++
             [⟨toString st.db.next_id, username, hash_password password, full_name,
               is_admin, email, default_prefs⟩],
           next_id := st.db.next_id + 1 } }) := by
    unfold register_user
    rw [hfree]
  refine ⟨_, _, hreg, ?_, ?_, ?_⟩
  case _ =>
    intro u hu huser
    rcases List.mem_append.mp hu with hold | hnew
    · exfalso
      have hne := List.find?_eq_none.mp hfree u hold
      simp [huser] at hne
    · simp only [List.mem_singleton] at hnew
      subst hnew
      refine ⟨rfl, hash_password_length password, ?_⟩
      intro hlen heq
      have heq2 : hash_password password = password := heq
      have h64 := hash_password_length password
      rw [heq2] at h64
      exact hlen h64
  case _ =>
    have hfindnew : (st.db.users ++
        [(⟨toString st.db.next_id, username, hash_password password, full_name,
           is_admin, email, default_prefs⟩ : User)]).find?
          (fun u => u.username == username) = some
        ⟨toString st.db.next_id, username, hash_password password, full_name,
         is_admin, email, default_prefs⟩ := by
      rw [List.find?_append, hfree]
      simp [List.find?_cons]
    unfold login
    rw [hfindnew]
    simp
  case _ =>
    intro password' hne
    have hfindnew : (st.db.users ++
        [(⟨toString st.db.next_id, username, hash_password password, full_name,
           is_admin, email, default_prefs⟩ : User)]).find?
          (fun u => u.username == username) = some
        ⟨toString st.db.next_id, username, hash_password password, full_name,
         is_admin, email, default_prefs⟩ := by
      rw [List.find?_append, hfree]
      simp [List.find?_cons]
    unfold login
    rw [hfindnew]
    simp [hne]

/-- Witness for C6: registering `alice` in an empty store. -/
theorem register_login_roundtrip_witness :
    ∃ uid st1,
      register_user ⟨⟨[], [], [], [], [], 0, 0⟩, none⟩ "alice" "pw" "Alice" true
        (some "a@x") = (.ok uid, st1) ∧
      (∀ u ∈ st1.db.users, u.username = "alice" →
          u.password_hash = hash_password "pw" ∧
          u.password_hash.length = 64 ∧
          ("pw".length ≠ 64 → u.password_hash ≠ "pw")) ∧
      login st1 "alice" "pw" =
        (true, { st1 with current_user := some (⟨uid, "alice",
          hash_password "pw", "Alice", true, some "a@x",
          default_prefs⟩ : User) }) ∧
      (∀ password', hash_password password' ≠ hash_password "pw" →
          login st1 "alice" password' = (false, st1)) :=
  register_login_roundtrip ⟨⟨[], [], [], [], [], 0, 0⟩, none⟩ "alice" "pw" "Alice"
    true (some "a@x") rfl

theorem mem_user_tasks_rows (db : DB) (uid : String) (status : Option String) (t : Task) :
    t ∈ user_tasks_rows db uid status ↔
      t ∈ db.tasks ∧ (t.created_by = uid ∨ t.assigned_to = some uid) ∧
      ∀ s, truthy status = some s → t.status = s := by
  unfold user_tasks_rows
  cases hst : truthy status with
  | none => simp [List.mem_filter]
  | some s =>
    simp only [List.mem_filter]
    constructor
    · rintro ⟨⟨hmem, hrole⟩, hstat⟩
      refine ⟨hmem, by simpa using hrole, ?_⟩
      intro s2 hs2
      cases hs2
      simpa using hstat
    · rintro ⟨hmem, hrole, hstat⟩
      exact ⟨⟨hmem, by simpa using hrole⟩, by simpa using hstat s rfl⟩

/-- An element at index `i` of a list appears in the page window that
contains index `i`. -/
theorem window_complete {α : Type} (l : List α) (i per : Nat) (hper : 0 < per)
    (hi : i < l.length) :
    l[i] ∈ (l.drop ((i / per) * per)).take per := by
  have hle : (i / per) * per ≤ i := Nat.div_mul_le_self i per
  have hmod : i % per < per := Nat.mod_lt _ hper
  have heq : (i / per) * per + i % per = i := by
    rw [Nat.mul_comm]
    exact Nat.div_add_mod i per
  have hlen : i % per < (l.drop ((i / per) * per)).length := by
    rw [List.length_drop]
    omega
  have hlen2 : i % per < ((l.drop ((i / per) * per)).take per).length := by
    rw [List.length_take]
    exact lt_min hmod hlen
  rw [List.mem_iff_getElem]
  refine ⟨i % per, hlen2, ?_⟩
  rw [List.getElem_take, List.getElem_drop]
  congr 1

/-- C7, amended.  `get_user_tasks` defaults the queried user to the session
principal (asking for none and for the principal's own id coincide); a
non-admin asking about anybody else is refused with the state unchanged;
an allowed call returns the query rows: tasks of the **requested** user
(creator or assignee), status-filtered, sorted by creation time
descending, at most one page, every qualifying task reachable on some
page. -/
theorem get_user_tasks_contract
    (st : TMState) (cu : User) (status : Option String) (page per_page : Nat)
    (uid : String) (hcu : st.current_user = some cu) :
    (get_user_tasks st none status page per_page =
      get_user_tasks st (some cu.id) status page per_page) ∧
    (uid ≠ "" → uid ≠ cu.id → cu.is_admin = false →
      get_user_tasks st (some uid) status page per_page =
        (.err "Недостаточно прав для просмотра задач другого пользователя", st)) ∧
    (uid ≠ "" → (uid = cu.id ∨ cu.is_admin = true) →
      get_user_tasks st (some uid) status page per_page =
        (.ok (user_tasks_query st.db uid status page per_page), st)) ∧
    (∀ t ∈ user_tasks_query st.db uid status page per_page,
        t ∈ st.db.tasks ∧ (t.created_by = uid ∨ t.assigned_to = some uid) ∧
        ∀ s, truthy status = some s → t.status = s) ∧
    (user_tasks_query st.db uid status page per_page).Pairwise
        (fun a b => b.created_at ≤ a.created_at) ∧
    (user_tasks_query st.db uid status page per_page).length ≤ per_page ∧
    (∀ t ∈ st.db.tasks, 0 < per_page →
        (t.created_by = uid ∨ t.assigned_to = some uid) →
        (∀ s, truthy status = some s → t.status = s) →
        ∃ p, 1 ≤ p ∧ t ∈ user_tasks_query st.db uid status p per_page) := by
  refine ⟨?_, ?_, ?_, ?_, ?_, ?_, ?_⟩
  · unfold get_user_tasks
    rw [hcu]
    by_cases hid : cu.id = "" <;> simp [truthy, hid]
  · intro hne hneq hadmin
    unfold get_user_tasks
    rw [hcu]
    simp [truthy, hne, hneq, hadmin]
  · intro hne hcase
    unfold get_user_tasks
    rw [hcu]
    rcases hcase with hcase | hcase
    · subst hcase
      simp [truthy, hne]
    · simp [truthy, hne, hcase]
  · intro t ht
    unfold user_tasks_query at ht
    have hsub : t ∈ (user_tasks_rows st.db uid status).insertionSort created_desc :=
      (List.drop_sublist _ _).subset ((List.take_sublist _ _).subset ht)
    exact (mem_user_tasks_rows st.db uid status t).mp
      ((List.perm_insertionSort created_desc _).subset hsub)
  · unfold user_tasks_query
    have hsorted := List.sorted_insertionSort created_desc
      (user_tasks_rows st.db uid status)
    have hwin : ((((user_tasks_rows st.db uid status).insertionSort created_desc).drop
        ((page - 1) * per_page)).take per_page).Sublist
        ((user_tasks_rows st.db uid status).insertionSort created_desc) :=
      (List.take_sublist _ _).trans (List.drop_sublist _ _)
    exact List.Pairwise.sublist hwin hsorted
  · unfold user_tasks_query
    exact List.length_take_le per_page _
  · intro t ht hper hrole hstat
    have hrow : t ∈ (user_tasks_rows st.db uid status).insertionSort created_desc :=
      ((List.perm_insertionSort created_desc _).mem_iff).mpr
        ((mem_user_tasks_rows st.db uid status t).mpr ⟨ht, hrole, hstat⟩)
    obtain ⟨i, hi, hget⟩ := List.mem_iff_getElem.mp hrow
    refine ⟨i / per_page + 1, Nat.le_add_left 1 _, ?_⟩
    unfold user_tasks_query
    have hw := window_complete ((user_tasks_rows st.db uid status).insertionSort created_desc)
      i per_page hper hi
    rw [hget] at hw
    simpa using hw

/-- Witness for the amended C7: `bob` lists their own tasks by default. -/
theorem get_user_tasks_contract_witness :
    get_user_tasks st0 none none 1 20 = get_user_tasks st0 (some "b") none 1 20 :=
  (get_user_tasks_contract st0 uBob none 1 20 "b" rfl).1

/-- C7 counterexample to the claim as stated: the admin `alice` lists
`bob`'s tasks; the call succeeds and returns tasks in which the acting
principal `alice` is neither creator nor assignee — the row filter uses
the requested user, not the principal. -/
theorem get_user_tasks_principal_claim_cex :
    (get_user_tasks ⟨db0, some uAdmin⟩ (some "b") none 1 20).1 =
      .ok [task2, task1] ∧
    uAdmin.id = "a" ∧
    task1.created_by ≠ "a" ∧ task1.assigned_to ≠ some "a" := by
  decide

/-- C8 counterexample to the claim as stated: `create_task` performs no
priority validation at all — a label far outside any {low, normal, high}
enum is accepted and stored verbatim. -/
theorem create_task_priority_not_validated_cex :
    (create_task st0 "Задача" "" none none none "не-приоритет").1 = .ok "100" ∧
    ∃ t ∈ (create_task st0 "Задача" "" none none none "не-приоритет").2.db.tasks,
      t.priority = "не-приоритет" := by
  decide

/-- Probe for priority-independence: rewrite every stored priority label. -/
def set_priorities (p : String → String) (db : DB) : DB :=
  { db with tasks := db.tasks.map (fun t => { t with priority := p t.priority }) }

theorem set_priorities_find? (p : String → String) (db : DB) (task_id : String) :
    (set_priorities p db).tasks.find? (fun t => t.id == task_id) =
      (db.tasks.find? (fun t => t.id == task_id)).map
        (fun t => { t with priority := p t.priority }) := by
  show (db.tasks.map (fun t => { t with priority := p t.priority })).find?
      (fun t => t.id == task_id) = _
  rw [List.find?_map]
  rfl

theorem assign_task_read_set_priorities
    (p : String → String) (db : DB) (cu : User) (task_id user_id : String) :
    assign_task_read (set_priorities p db) cu task_id user_id =
      assign_task_read db cu task_id user_id := by
  unfold assign_task_read
  rw [set_priorities_find?]
  cases hfind : db.tasks.find? (fun t => t.id == task_id) with
  | none => rfl
  | some task =>
    simp only [Option.map_some']
    rfl

/-- C8, amended.  The priority label is a free-form string: `create_task`
accepts any label without validation and stores it verbatim, and the later
lifecycle operations (`update_task_status`, `assign_task`) neither inspect
nor re-validate stored priorities — their outcome is invariant under an
arbitrary rewriting of every stored priority label. -/
theorem priority_free_form
    (st : TMState) (cu : User) (hcu : st.current_user = some cu)
    (title descr priority : String) :
    (create_task st title descr none none none priority).1 =
      .ok (toString st.db.next_id) ∧
    (∃ t ∈ (create_task st title descr none none none priority).2.db.tasks,
        t.id = toString st.db.next_id ∧ t.priority = priority) ∧
    (∀ p : String → String, ∀ task_id status,
        (update_task_status ⟨set_priorities p st.db, st.current_user⟩ task_id status).1 =
          (update_task_status st task_id status).1) ∧
    (∀ p : String → String, ∀ task_id user_id,
        (assign_task ⟨set_priorities p st.db, st.current_user⟩ task_id user_id).1 =
          (assign_task st task_id user_id).1) := by
  have hcreate : create_task st title descr none none none priority =
      (.ok (toString st.db.next_id),
       { st with db := { st.db with
           tasks := st.db.tasks ++
             [⟨toString st.db.next_id, title, descr, cu.id, none, none,
               st.db.clock, none, "новая", priority⟩],
           next_id := st.db.next_id + 1, clock := st.db.clock + 1 } }) := by
    unfold create_task
    rw [hcu]
    rfl
  refine ⟨by rw [hcreate], ?_, ?_, ?_⟩
  · rw [hcreate]
    exact ⟨_, List.mem_append.mpr (Or.inr (List.mem_singleton.mpr rfl)), rfl, rfl⟩
  · intro p task_id status
    by_cases hv : status ∈ valid_statuses
    · have hv' : ¬ status ∉ valid_statuses := by simpa using hv
      simp only [update_task_status, hcu, if_neg hv']
      rw [set_priorities_find?]
      cases hfind : st.db.tasks.find? (fun t => t.id == task_id) with
      | none => rfl
      | some task =>
        simp only [Option.map_some']
        have hperm : update_status_permission (set_priorities p st.db) cu
            { task with priority := p task.priority } =
            update_status_permission st.db cu task := rfl
        rw [hperm]
        by_cases hp : update_status_permission st.db cu task = true <;> simp [hp]
    · have h1 := update_status_invalid_rejected ⟨set_priorities p st.db, st.current_user⟩
        cu task_id status hcu hv
      have h2 := update_status_invalid_rejected st cu task_id status hcu hv
      rw [h1, h2]
  · intro p task_id user_id
    simp only [assign_task, hcu]
    rw [assign_task_read_set_priorities]
    cases hread : assign_task_read st.db cu task_id user_id with
    | ok a => cases a; rfl
    | err m => rfl

/-- Witness for the amended C8: an arbitrary label is stored as given. -/
theorem priority_free_form_witness :
    (create_task st0 "Задача" "" none none none "какой-угодно").1 = Res.ok "100" :=
  (priority_free_form st0 uBob rfl "Задача" "" "какой-угодно").1

/-! ## Interleaved execution of `assign_task` (concurrency model for C5) -/

def uX1 : User := ⟨"x1", "ivan", "h1", "Ivan", false, none, default_prefs⟩

def uX2 : User := ⟨"x2", "petr", "h2", "Petr", false, none, default_prefs⟩

def taskC5 : Task := ⟨"t5", "Гонка", "", "a", none, none, 7, none, "новая", "обычный"⟩

def dbC5 : DB := ⟨[uAdmin, uX1, uX2], [], [], [taskC5], [], 200, 90⟩

/-- C5 (against the code): `assign_task` is an unguarded read-then-write —
no version check, no lock, and no Conflict outcome exists anywhere in its
result type.  When two calls both run their read/decision phase against
the same snapshot and then write (read-read-write-write interleaving),
both report success, and the second write silently overwrites the first:
the losing assignment `x1` vanishes without any error. -/
theorem assign_task_interleaved_lost_update :
    assign_task ⟨dbC5, some uAdmin⟩ "t5" "x1" =
      (.ok (), ⟨assign_task_write dbC5 "t5" "x1", some uAdmin⟩) ∧
    assign_task_read dbC5 uAdmin "t5" "x1" = .ok () ∧
    assign_task_read dbC5 uAdmin "t5" "x2" = .ok () ∧
    (∃ t ∈ (assign_task_write (assign_task_write dbC5 "t5" "x1") "t5" "x2").tasks,
      t.id = "t5" ∧ t.assigned_to = some "x2" ∧ t.status = "в работе") ∧
    (∀ t ∈ (assign_task_write (assign_task_write dbC5 "t5" "x1") "t5" "x2").tasks,
      t.assigned_to ≠ some "x1") := by
  decide

end TaskDist
